import Mathlib

/-!
Shallow embedding of the Rust crate `unit_test_utils` (src/lib.rs), a small
numerical test-assertion helper library, together with proofs of its
specification's claims.

Floating-point values are modelled by the type `FP`: NaN, the two signed
infinities, and exact finite values (rationals).  The IEEE comparison and
arithmetic operators used by the crate are embedded with their IEEE special
cases (NaN propagation / unordered comparisons, signed-infinity arithmetic);
finite arithmetic is exact (rounding is not relevant to any of the claims,
which are about the structure of the decision procedure).  The crate is
generic over `f32`/`f64` via the `num::Float` trait; the only
precision-dependent quantity it uses is `T::min_positive_value()`, which is
embedded as an explicit parameter `mp : ℚ`.

Rust `panic!`/`assert!` is modelled by `Except.error` carrying the panic
message; a normal return is `Except.ok`.
-/

/-- Embedded floating-point value: NaN, an infinity (`true` = positive,
`false` = negative), or an exact finite value. -/
inductive FP where
  | nan : FP
  | inf : Bool → FP
  | finite : ℚ → FP
deriving DecidableEq

/-- Rust `T::is_nan()`. -/
def FP.isNan : FP → Bool
  | .nan => true
  | _ => false

/-- Whether the value is finite (not NaN, not an infinity). -/
def FP.isFinite : FP → Bool
  | .finite _ => true
  | _ => false

/-- Rust `T::abs()` (IEEE absolute value). -/
def fabs : FP → FP
  | .nan => .nan
  | .inf _ => .inf true
  | .finite q => .finite |q|

/-- IEEE subtraction `a - b`: NaN propagates; same-signed infinities give
NaN; an infinity dominates a finite operand; finite subtraction is exact. -/
def fsub : FP → FP → FP
  | .nan, _ => .nan
  | .inf _, .nan => .nan
  | .finite _, .nan => .nan
  | .inf s, .inf t => if s = t then .nan else .inf s
  | .inf s, .finite _ => .inf s
  | .finite _, .inf t => .inf (!t)
  | .finite p, .finite q => .finite (p - q)

/-- IEEE multiplication `a * b`: NaN propagates; `inf * 0` is NaN; signs
multiply; finite multiplication is exact. -/
def fmul : FP → FP → FP
  | .nan, _ => .nan
  | .inf _, .nan => .nan
  | .finite _, .nan => .nan
  | .inf s, .inf t => .inf (s == t)
  | .inf s, .finite q => if q = 0 then .nan else .inf (s == decide (0 < q))
  | .finite q, .inf t => if q = 0 then .nan else .inf (t == decide (0 < q))
  | .finite p, .finite q => .finite (p * q)

/-- IEEE `a <= b`: false whenever an operand is NaN. -/
def fpLe : FP → FP → Bool
  | .nan, _ => false
  | .inf _, .nan => false
  | .finite _, .nan => false
  | .inf s, .inf t => !s || t
  | .inf s, .finite _ => !s
  | .finite _, .inf t => t
  | .finite p, .finite q => decide (p ≤ q)

/-- IEEE `a < b`: false whenever an operand is NaN. -/
def fpLt : FP → FP → Bool
  | .nan, _ => false
  | .inf _, .nan => false
  | .finite _, .nan => false
  | .inf s, .inf t => !s && t
  | .inf s, .finite _ => !s
  | .finite _, .inf t => t
  | .finite p, .finite q => decide (p < q)

/-- IEEE `a >= b`. -/
def fpGe (a b : FP) : Bool := fpLe b a

/-- IEEE `a > b`. -/
def fpGt (a b : FP) : Bool := fpLt b a

/-- IEEE `a == b`: false whenever an operand is NaN; infinities are equal
iff their signs agree. -/
def fpEq : FP → FP → Bool
  | .nan, _ => false
  | .inf _, .nan => false
  | .finite _, .nan => false
  | .inf s, .inf t => s == t
  | .inf _, .finite _ => false
  | .finite _, .inf _ => false
  | .finite p, .finite q => decide (p = q)

/-- Rust `float_max` from src/lib.rs: `if a >= b { a } else { b }`. -/
def float_max (a b : FP) : FP := if fpGe a b = true then a else b

/-- Rust `float_min` from src/lib.rs: `if a >= b { b } else { a }`. -/
def float_min (a b : FP) : FP := if fpGe a b = true then b else a

/-- The pure decision core of Rust `nearly_equal` (everything after the two
tolerance asserts), with `mp` standing for `T::min_positive_value()`. -/
def nearly_equal_val (mp : ℚ) (a b rel_tol abs_tol : FP) : Bool :=
  let abs_a := fabs a
  let abs_b := fabs b
  let abs_diff := fabs (fsub a b)
  if (a.isNan || b.isNan) = true then
    false
  else if (fpEq a b || fpLe abs_diff (.finite mp)) = true then
    true
  else
    let max_abs_a_b := float_max abs_a abs_b
    fpLe abs_diff (float_min abs_tol (fmul rel_tol max_abs_a_b))

/-- Rust `nearly_equal`: the two `assert!` preconditions (modelled as
`Except.error` with the assert message) followed by the decision core. -/
def nearly_equal (mp : ℚ) (a b rel_tol abs_tol : FP) : Except String Bool :=
  if fpGt rel_tol (.finite 0) = true then
    if fpGt abs_tol (.finite 0) = true then
      .ok (nearly_equal_val mp a b rel_tol abs_tol)
    else
      .error "absolute tolerance nonpositive"
  else
    .error "relative tolerance nonpositive"

/-- The element loop of Rust `nearly_equal_array`: walks the zipped pairs,
returning `false` at the first non-nearly-equal pair, propagating any panic
from `nearly_equal`. -/
def near_eq_pairs (mp : ℚ) (rel_tol abs_tol : FP) : List FP → List FP → Except String Bool
  | a :: as, b :: bs =>
    match nearly_equal mp a b rel_tol abs_tol with
    | .error e => .error e
    | .ok r => if r then near_eq_pairs mp rel_tol abs_tol as bs else .ok false
  | _, _ => .ok true

/-- Rust `nearly_equal_array`: asserts equal lengths, then checks pairwise. -/
def nearly_equal_array (mp : ℚ) (a b : List FP) (rel_tol abs_tol : FP) : Except String Bool :=
  if a.length = b.length then
    near_eq_pairs mp rel_tol abs_tol a b
  else
    .error "assertion failed: a.len() == b.len()"

/-- The enumerated loop of Rust `assert_nearly_equal_array`: `idx` is the
running index; panics with the crate's message at the first failing pair. -/
def assert_pairs (mp : ℚ) (rel_tol abs_tol : FP) (msg : String) :
    Nat → List FP → List FP → Except String Unit
  | idx, a :: as, b :: bs =>
    match nearly_equal mp a b rel_tol abs_tol with
    | .error e => .error e
    | .ok r =>
      if r then
        assert_pairs mp rel_tol abs_tol msg (idx + 1) as bs
      else
        .error ("(" ++ msg ++ ") arrays not equal at entry " ++ toString idx)
  | _, _, _ => .ok ()

/-- Rust `assert_nearly_equal_array`: asserts equal lengths, then panics at
the first index whose pair is not nearly equal. -/
def assert_nearly_equal_array (mp : ℚ) (a b : List FP) (rel_tol abs_tol : FP)
    (msg : String) : Except String Unit :=
  if a.length = b.length then
    assert_pairs mp rel_tol abs_tol msg 0 a b
  else
    .error "assertion failed: a.len() == b.len()"

/-- Rendering of an embedded float, standing for Rust's `Display` of the
value inside the panic messages of `assert_all_ge` / `assert_all_le`. -/
def fpRepr : FP → String
  | .nan => "NaN"
  | .inf true => "inf"
  | .inf false => "-inf"
  | .finite q => toString q

/-- The enumerated loop of Rust `assert_all_ge`. -/
def all_ge_go (lim : FP) (msg : String) : Nat → List FP → Except String Unit
  | idx, a :: as =>
    if fpLt a lim = true then
      .error ("(" ++ msg ++ ") array[" ++ toString idx ++ "] = " ++ fpRepr a ++
        " is lower than " ++ fpRepr lim)
    else
      all_ge_go lim msg (idx + 1) as
  | _, [] => .ok ()

/-- Rust `assert_all_ge`: panics at the first element strictly below `lim`. -/
def assert_all_ge (a : List FP) (lim : FP) (msg : String) : Except String Unit :=
  all_ge_go lim msg 0 a

/-- The enumerated loop of Rust `assert_all_le`. -/
def all_le_go (lim : FP) (msg : String) : Nat → List FP → Except String Unit
  | idx, a :: as =>
    if fpGt a lim = true then
      .error ("(" ++ msg ++ ") array[" ++ toString idx ++ "] = " ++ fpRepr a ++
        " is greater than " ++ fpRepr lim)
    else
      all_le_go lim msg (idx + 1) as
  | _, [] => .ok ()

/-- Rust `assert_all_le`: panics at the first element strictly above `lim`. -/
def assert_all_le (a : List FP) (lim : FP) (msg : String) : Except String Unit :=
  all_le_go lim msg 0 a

/-- Mathematical minimum of two embedded values, written from the spec's
formula `min(abs_tol, rel_tol * max(|a|, |b|))` (for comparison with the
code's `float_min`). -/
def specMin (x y : FP) : FP := if fpLe x y = true then x else y

/-- Mathematical maximum of two embedded values, written from the spec's
formula `max(|a|, |b|)` (for comparison with the code's `float_max`). -/
def specMax (x y : FP) : FP := if fpLe x y = true then y else x

/-! ### Basic lemmas about the embedded comparisons -/

lemma isNan_false_of_fpGt (x y : FP) (h : fpGt x y = true) : x.isNan = false := by
  rcases x with _ | s | p
  · rcases y with _ | t | q <;> simp [fpGt, fpLt] at h
  · rfl
  · rfl

lemma fpLt_false_of_fpLe (x y : FP) (h : fpLe x y = true) : fpLt y x = false := by
  rcases x with _ | s | p <;> rcases y with _ | t | q <;> (try cases s) <;>
    (try cases t) <;> simp_all [fpLe, fpLt, not_lt]

lemma fpLe_false_of_fpLt (x y : FP) (h : fpLt x y = true) : fpLe y x = false := by
  rcases x with _ | s | p <;> rcases y with _ | t | q <;> (try cases s) <;>
    (try cases t) <;> simp_all [fpLe, fpLt, not_le]

/-- Claim C2: for every `a` and strictly positive tolerances, `nearly_equal`
returns `false` whenever either argument is NaN (in particular for
`nearly_equal(a, NaN, ...)` and `nearly_equal(NaN, NaN, ...)`), regardless of
the tolerance values. -/
theorem claim_C2 (mp : ℚ) (a b rel_tol abs_tol : FP)
    (hn : a.isNan = true ∨ b.isNan = true)
    (hrel : fpGt rel_tol (.finite 0) = true)
    (habs : fpGt abs_tol (.finite 0) = true) :
    nearly_equal mp a b rel_tol abs_tol = .ok false := by
  rcases hn with h | h <;> simp [nearly_equal, hrel, habs, nearly_equal_val, h]

theorem claim_C2_witness :
    nearly_equal (mkRat 1 1000000) FP.nan FP.nan (.finite 1) (.finite 1) = .ok false ∧
    nearly_equal (mkRat 1 1000000) (.finite 3) FP.nan (.finite 1) (.finite 1) = .ok false :=
  ⟨claim_C2 (mkRat 1 1000000) FP.nan FP.nan (.finite 1) (.finite 1) (Or.inl rfl)
      (by decide) (by decide),
    claim_C2 (mkRat 1 1000000) (.finite 3) FP.nan (.finite 1) (.finite 1) (Or.inr rfl)
      (by decide) (by decide)⟩

/-- Claim C3: for all `a`, `b` (NaN and infinities included), a nonpositive
relative tolerance is a fatal precondition failure with message
"relative tolerance nonpositive", and (with a positive relative tolerance) a
nonpositive absolute tolerance is a fatal precondition failure with message
"absolute tolerance nonpositive"; no boolean is returned in either case. -/
theorem claim_C3 (mp : ℚ) (a b rel_tol abs_tol : FP) :
    (fpLe rel_tol (.finite 0) = true →
      nearly_equal mp a b rel_tol abs_tol = .error "relative tolerance nonpositive") ∧
    (fpGt rel_tol (.finite 0) = true → fpLe abs_tol (.finite 0) = true →
      nearly_equal mp a b rel_tol abs_tol = .error "absolute tolerance nonpositive") := by
  constructor
  · intro h
    have hg : fpGt rel_tol (.finite 0) = false := fpLt_false_of_fpLe _ _ h
    simp [nearly_equal, hg]
  · intro hrel h
    have hg : fpGt abs_tol (.finite 0) = false := fpLt_false_of_fpLe _ _ h
    simp [nearly_equal, hrel, hg]

theorem claim_C3_witness :
    nearly_equal (mkRat 1 1000000) (.finite 5) (.finite 6) (.finite 0) (.finite 1) =
      .error "relative tolerance nonpositive" ∧
    nearly_equal (mkRat 1 1000000) (.finite 5) (.finite 6) (.finite 1) (.finite 0) =
      .error "absolute tolerance nonpositive" :=
  ⟨(claim_C3 (mkRat 1 1000000) (.finite 5) (.finite 6) (.finite 0) (.finite 1)).1 (by decide),
    (claim_C3 (mkRat 1 1000000) (.finite 5) (.finite 6) (.finite 1) (.finite 0)).2
      (by decide) (by decide)⟩

/-- Claim C5: for non-NaN `a`, `b` and strictly positive tolerances, if
`a == b` exactly or `|a - b|` is at most the smallest positive representable
value, then `nearly_equal` returns `true`, however small the tolerances. -/
theorem claim_C5 (mp : ℚ) (a b rel_tol abs_tol : FP)
    (ha : a.isNan = false) (hb : b.isNan = false)
    (hrel : fpGt rel_tol (.finite 0) = true)
    (habs : fpGt abs_tol (.finite 0) = true)
    (h : fpEq a b = true ∨ fpLe (fabs (fsub a b)) (.finite mp) = true) :
    nearly_equal mp a b rel_tol abs_tol = .ok true := by
  rcases h with h | h <;>
    simp [nearly_equal, hrel, habs, nearly_equal_val, ha, hb, h]

theorem claim_C5_witness :
    nearly_equal (mkRat 1 1000000) (.finite 5) (.finite 5) (.finite (mkRat 1 1000000)) (.finite (mkRat 1 1000000)) =
      .ok true :=
  claim_C5 (mkRat 1 1000000) (.finite 5) (.finite 5) (.finite (mkRat 1 1000000)) (.finite (mkRat 1 1000000))
    rfl rfl (by decide) (by decide) (Or.inl (by decide))

/-! ### Symmetry lemmas -/

lemma fabs_isNan (x : FP) : (fabs x).isNan = x.isNan := by
  cases x <;> rfl

lemma fpEq_comm (a b : FP) : fpEq a b = fpEq b a := by
  rcases a with _ | s | p <;> rcases b with _ | t | q
  · rfl
  · rfl
  · rfl
  · rfl
  · cases s <;> cases t <;> rfl
  · rfl
  · rfl
  · rfl
  · simp only [fpEq]
    exact decide_eq_decide.mpr eq_comm

lemma fabs_fsub_comm (a b : FP) : fabs (fsub a b) = fabs (fsub b a) := by
  rcases a with _ | s | p <;> rcases b with _ | t | q
  · rfl
  · rfl
  · rfl
  · rfl
  · cases s <;> cases t <;> rfl
  · cases s <;> rfl
  · rfl
  · cases t <;> rfl
  · simp [fsub, fabs, abs_sub_comm]

lemma float_max_comm (x y : FP) (hx : x.isNan = false) (hy : y.isNan = false) :
    float_max x y = float_max y x := by
  rcases x with _ | s | p <;> rcases y with _ | t | q <;> simp_all [FP.isNan]
  · cases s <;> cases t <;> rfl
  · cases s <;> rfl
  · cases t <;> rfl
  · simp only [float_max, fpGe, fpLe, decide_eq_true_eq]
    by_cases h1 : q ≤ p <;> by_cases h2 : p ≤ q
    · rw [if_pos h1, if_pos h2]
      exact congrArg FP.finite (le_antisymm h2 h1)
    · rw [if_pos h1, if_neg h2]
    · rw [if_neg h1, if_pos h2]
    · exact absurd ((le_total p q).resolve_left h2) h1

lemma nearly_equal_val_comm (mp : ℚ) (a b rel_tol abs_tol : FP) :
    nearly_equal_val mp a b rel_tol abs_tol = nearly_equal_val mp b a rel_tol abs_tol := by
  by_cases hn : (a.isNan || b.isNan) = true
  · have hn2 : (b.isNan || a.isNan) = true := by
      rw [Bool.or_comm] at hn; exact hn
    simp [nearly_equal_val, hn, hn2]
  · have hab : a.isNan = false ∧ b.isNan = false := by
      constructor <;> (cases ha : a.isNan <;> cases hb : b.isNan <;>
        simp_all)
    simp only [nearly_equal_val]
    rw [fpEq_comm b a, fabs_fsub_comm b a, Bool.or_comm b.isNan a.isNan,
      float_max_comm (fabs b) (fabs a) (by rw [fabs_isNan]; exact hab.2)
        (by rw [fabs_isNan]; exact hab.1)]

/-- Claim C6: for all `a`, `b` and strictly positive tolerances,
`nearly_equal` is symmetric in its first two arguments. -/
theorem claim_C6 (mp : ℚ) (a b rel_tol abs_tol : FP)
    (hrel : fpGt rel_tol (.finite 0) = true)
    (habs : fpGt abs_tol (.finite 0) = true) :
    nearly_equal mp a b rel_tol abs_tol = nearly_equal mp b a rel_tol abs_tol := by
  simp [nearly_equal, hrel, habs, nearly_equal_val_comm mp a b rel_tol abs_tol]

theorem claim_C6_witness :
    nearly_equal (mkRat 1 1000000) (.finite 1) (.finite 2) (.finite 1) (.finite 1) =
      nearly_equal (mkRat 1 1000000) (.finite 2) (.finite 1) (.finite 1) (.finite 1) :=
  claim_C6 (mkRat 1 1000000) (.finite 1) (.finite 2) (.finite 1) (.finite 1)
    (by decide) (by decide)

/-! ### Shape lemmas for positive tolerances -/

lemma fp_pos_shape (x : FP) (h : fpGt x (.finite 0) = true) :
    x = .inf true ∨ ∃ r, x = .finite r ∧ 0 < r := by
  rcases x with _ | s | r
  · simp [fpGt, fpLt] at h
  · cases s
    · simp [fpGt, fpLt] at h
    · exact Or.inl rfl
  · right
    exact ⟨r, rfl, by simpa [fpGt, fpLt] using h⟩

/-- Counterexample to claim C4 as stated: with the strictly positive (but
infinite) absolute tolerance `+inf`, `nearly_equal` on one infinite and one
finite argument returns `true`, not `false`: the difference is `+inf` and
`+inf <= float_min(+inf, 1 * +inf) = +inf` holds. -/
theorem claim_C4_counterexample :
    fpGt (FP.finite 1) (FP.finite 0) = true ∧
    fpGt (FP.inf true) (FP.finite 0) = true ∧
    nearly_equal (mkRat 1 1000000) (.inf true) (.finite 0) (.finite 1) (.inf true) =
      .ok true := by
  exact ⟨by decide, by decide, rfl⟩

/-- Claim C4, amended: for strictly positive `rel_tol` and strictly positive
*finite* `abs_tol`, `nearly_equal` on two infinities of the same sign returns
`true`; on infinities of opposite sign, or on one infinite and one finite
argument, it returns `false` without panicking.  (As stated the claim fails
when `abs_tol` is `+inf`, see the counterexample.) -/
theorem claim_C4_amended (mp : ℚ) (rel_tol abs_tol : FP)
    (hrel : fpGt rel_tol (.finite 0) = true)
    (habs : fpGt abs_tol (.finite 0) = true)
    (hfin : abs_tol.isFinite = true) :
    (∀ s : Bool, nearly_equal mp (.inf s) (.inf s) rel_tol abs_tol = .ok true) ∧
    (∀ s : Bool, nearly_equal mp (.inf s) (.inf (!s)) rel_tol abs_tol = .ok false) ∧
    (∀ (s : Bool) (q : ℚ),
      nearly_equal mp (.inf s) (.finite q) rel_tol abs_tol = .ok false ∧
      nearly_equal mp (.finite q) (.inf s) rel_tol abs_tol = .ok false) := by
  obtain ⟨c, rfl⟩ : ∃ c, abs_tol = FP.finite c := by
    rcases abs_tol with _ | s | c
    · simp [FP.isFinite] at hfin
    · simp [FP.isFinite] at hfin
    · exact ⟨c, rfl⟩
  rcases fp_pos_shape rel_tol hrel with rfl | ⟨r, rfl, hr⟩
  · refine ⟨fun s => ?_, fun s => ?_, fun s q => ⟨?_, ?_⟩⟩ <;> cases s <;>
      simp [nearly_equal, hrel, habs, nearly_equal_val, FP.isNan, fpEq, fabs,
        fsub, fmul, float_max, float_min, fpGe, fpLe, fpLt]
  · refine ⟨fun s => ?_, fun s => ?_, fun s q => ⟨?_, ?_⟩⟩ <;> cases s <;>
      simp [nearly_equal, hrel, habs, nearly_equal_val, FP.isNan, fpEq, fabs,
        fsub, fmul, float_max, float_min, fpGe, fpLe, fpLt, ne_of_gt hr,
        decide_eq_true hr]

theorem claim_C4_witness :
    nearly_equal (mkRat 1 1000000) (.inf true) (.inf true) (.finite 1) (.finite 1) =
      .ok true ∧
    nearly_equal (mkRat 1 1000000) (.inf true) (.inf false) (.finite 1) (.finite 1) =
      .ok false ∧
    nearly_equal (mkRat 1 1000000) (.inf true) (.finite 0) (.finite 1) (.finite 1) =
      .ok false :=
  ⟨(claim_C4_amended (mkRat 1 1000000) (.finite 1) (.finite 1)
      (by decide) (by decide) (by decide)).1 true,
    (claim_C4_amended (mkRat 1 1000000) (.finite 1) (.finite 1)
      (by decide) (by decide) (by decide)).2.1 true,
    ((claim_C4_amended (mkRat 1 1000000) (.finite 1) (.finite 1)
      (by decide) (by decide) (by decide)).2.2 true 0).1⟩

/-! ### The code's float_min / float_max agree with the spec's min / max on
non-NaN values -/

lemma float_max_eq_specMax (x y : FP) (hx : x.isNan = false) (hy : y.isNan = false) :
    float_max x y = specMax x y := by
  rcases x with _ | s | p <;> rcases y with _ | t | q <;> simp_all [FP.isNan]
  · cases s <;> cases t <;> rfl
  · cases s <;> rfl
  · cases t <;> rfl
  · simp only [float_max, specMax, fpGe, fpLe, decide_eq_true_eq]
    by_cases h1 : q ≤ p <;> by_cases h2 : p ≤ q
    · rw [if_pos h1, if_pos h2]
      exact congrArg FP.finite (le_antisymm h2 h1)
    · rw [if_pos h1, if_neg h2]
    · rw [if_neg h1, if_pos h2]
    · exact absurd ((le_total p q).resolve_left h2) h1

lemma float_min_eq_specMin (x y : FP) (hx : x.isNan = false) (hy : y.isNan = false) :
    float_min x y = specMin x y := by
  rcases x with _ | s | p <;> rcases y with _ | t | q <;> simp_all [FP.isNan]
  · cases s <;> cases t <;> rfl
  · cases s <;> rfl
  · cases t <;> rfl
  · simp only [float_min, specMin, fpGe, fpLe, decide_eq_true_eq]
    by_cases h1 : q ≤ p <;> by_cases h2 : p ≤ q
    · rw [if_pos h1, if_pos h2]
      exact congrArg FP.finite (le_antisymm h1 h2)
    · rw [if_pos h1, if_neg h2]
    · rw [if_neg h1, if_pos h2]
    · exact absurd ((le_total p q).resolve_left h2) h1

/-! ### In step 3 of the decision procedure the relative bound is never NaN -/

lemma float_max_mem (x y : FP) : float_max x y = x ∨ float_max x y = y := by
  unfold float_max
  split
  · exact Or.inl rfl
  · exact Or.inr rfl

lemma fabs_shape (x : FP) (hx : x.isNan = false) :
    fabs x = .inf true ∨ ∃ q, fabs x = .finite q ∧ 0 ≤ q := by
  rcases x with _ | s | q
  · simp [FP.isNan] at hx
  · exact Or.inl rfl
  · exact Or.inr ⟨|q|, rfl, abs_nonneg q⟩

lemma fabs_eq_zero_iff (x : FP) : fabs x = .finite 0 ↔ x = .finite 0 := by
  rcases x with _ | s | q <;> simp [fabs]

lemma max_abs_eq_zero (a b : FP) (ha : a.isNan = false) (hb : b.isNan = false)
    (h : float_max (fabs a) (fabs b) = .finite 0) :
    a = .finite 0 ∧ b = .finite 0 := by
  unfold float_max at h
  split at h
  case isTrue hge =>
    have ha0 : a = .finite 0 := (fabs_eq_zero_iff a).mp h
    rw [h] at hge
    rcases fabs_shape b hb with h2 | ⟨q, h2, hq⟩
    · rw [h2] at hge
      simp [fpGe, fpLe] at hge
    · rw [h2] at hge
      have hq0 : q ≤ 0 := by simpa [fpGe, fpLe] using hge
      have hq1 : q = 0 := le_antisymm hq0 hq
      exact ⟨ha0, (fabs_eq_zero_iff b).mp (by rw [h2, hq1])⟩
  case isFalse hge =>
    have hb0 : b = .finite 0 := (fabs_eq_zero_iff b).mp h
    rw [h] at hge
    rcases fabs_shape a ha with h2 | ⟨q, h2, hq⟩
    · rw [h2] at hge
      simp [fpGe, fpLe] at hge
    · rw [h2] at hge
      have : ¬ (0 ≤ q) := by simpa [fpGe, fpLe] using hge
      exact absurd hq this

lemma max_abs_pos_shape (a b : FP) (ha : a.isNan = false) (hb : b.isNan = false)
    (hne : fpEq a b = false) :
    float_max (fabs a) (fabs b) = .inf true ∨
    ∃ q, float_max (fabs a) (fabs b) = .finite q ∧ 0 < q := by
  have aux : ∀ x : FP, float_max (fabs a) (fabs b) = fabs x → x.isNan = false →
      float_max (fabs a) (fabs b) = .inf true ∨
      ∃ q, float_max (fabs a) (fabs b) = .finite q ∧ 0 < q := by
    intro x h hx
    rcases fabs_shape x hx with h2 | ⟨q, h2, hq⟩
    · exact Or.inl (by rw [h, h2])
    · rcases lt_or_eq_of_le hq with hq | hq
      · exact Or.inr ⟨q, by rw [h, h2], hq⟩
      · exfalso
        have h0 : float_max (fabs a) (fabs b) = .finite 0 := by rw [h, h2, ← hq]
        obtain ⟨ha0, hb0⟩ := max_abs_eq_zero a b ha hb h0
        rw [ha0, hb0] at hne
        simp [fpEq] at hne
  rcases float_max_mem (fabs a) (fabs b) with h | h
  · exact aux a h ha
  · exact aux b h hb

lemma fmul_pos_not_nan (rel_tol m : FP) (hrel : fpGt rel_tol (.finite 0) = true)
    (hm : m = .inf true ∨ ∃ q, m = .finite q ∧ 0 < q) :
    (fmul rel_tol m).isNan = false := by
  rcases fp_pos_shape rel_tol hrel with rfl | ⟨r, rfl, hr⟩ <;>
    rcases hm with rfl | ⟨q, rfl, hq⟩
  · rfl
  · simp [fmul, FP.isNan, ne_of_gt hq]
  · simp [fmul, FP.isNan, ne_of_gt hr]
  · rfl

/-- Claim C1: for non-NaN `a != b` with `|a - b|` above the smallest positive
representable value, and strictly positive tolerances, `nearly_equal` returns
`true` iff `|a - b| <= min(abs_tol, rel_tol * max(|a|, |b|))` — the `min`
combiner of the two tolerance criteria, not the conventional `max`. -/
theorem claim_C1 (mp : ℚ) (a b rel_tol abs_tol : FP)
    (ha : a.isNan = false) (hb : b.isNan = false)
    (hne : fpEq a b = false)
    (hdiff : fpGt (fabs (fsub a b)) (.finite mp) = true)
    (hrel : fpGt rel_tol (.finite 0) = true)
    (habs : fpGt abs_tol (.finite 0) = true) :
    nearly_equal mp a b rel_tol abs_tol = .ok true ↔
      fpLe (fabs (fsub a b))
        (specMin abs_tol (fmul rel_tol (specMax (fabs a) (fabs b)))) = true := by
  have hle : fpLe (fabs (fsub a b)) (.finite mp) = false :=
    fpLe_false_of_fpLt (.finite mp) _ hdiff
  have hmax : float_max (fabs a) (fabs b) = specMax (fabs a) (fabs b) :=
    float_max_eq_specMax _ _ (by rw [fabs_isNan]; exact ha)
      (by rw [fabs_isNan]; exact hb)
  have hmnn : (fmul rel_tol (float_max (fabs a) (fabs b))).isNan = false :=
    fmul_pos_not_nan _ _ hrel (max_abs_pos_shape a b ha hb hne)
  have htolnn : abs_tol.isNan = false := isNan_false_of_fpGt _ _ habs
  have hmin : float_min abs_tol (fmul rel_tol (float_max (fabs a) (fabs b))) =
      specMin abs_tol (fmul rel_tol (specMax (fabs a) (fabs b))) := by
    rw [← hmax]
    exact float_min_eq_specMin _ _ htolnn hmnn
  simp [nearly_equal, hrel, habs, nearly_equal_val, ha, hb, hne, hle, hmin]

theorem claim_C1_witness :
    nearly_equal (1/1000000) (.finite 5) (.finite 6) (.finite 1) (.finite 2) =
      .ok true :=
  (claim_C1 (1/1000000) (.finite 5) (.finite 6) (.finite 1) (.finite 2)
    rfl rfl (by decide) (by norm_num [fpGt, fpLt, fabs, fsub]) (by decide)
    (by decide)).mpr
    (by norm_num [fpLe, fabs, fsub, fmul, specMin, specMax])

/-! ### Array claims: the pairwise loop -/

lemma nearly_equal_ok (mp : ℚ) (a b rel_tol abs_tol : FP)
    (hrel : fpGt rel_tol (.finite 0) = true)
    (habs : fpGt abs_tol (.finite 0) = true) :
    nearly_equal mp a b rel_tol abs_tol = .ok (nearly_equal_val mp a b rel_tol abs_tol) := by
  simp [nearly_equal, hrel, habs]

lemma near_eq_pairs_ok (mp : ℚ) (rel_tol abs_tol : FP)
    (hrel : fpGt rel_tol (.finite 0) = true)
    (habs : fpGt abs_tol (.finite 0) = true) :
    ∀ a b : List FP, ∃ r, near_eq_pairs mp rel_tol abs_tol a b = .ok r := by
  intro a
  induction a with
  | nil => intro b; exact ⟨true, by cases b <;> rfl⟩
  | cons x xs ih =>
    intro b
    cases b with
    | nil => exact ⟨true, rfl⟩
    | cons y ys =>
      cases hv : nearly_equal_val mp x y rel_tol abs_tol
      · exact ⟨false, by
          simp [near_eq_pairs, nearly_equal_ok mp x y rel_tol abs_tol hrel habs, hv]⟩
      · rcases ih ys with ⟨r, hr⟩
        exact ⟨r, by
          simp [near_eq_pairs, nearly_equal_ok mp x y rel_tol abs_tol hrel habs, hv, hr]⟩

lemma near_eq_pairs_true_iff (mp : ℚ) (rel_tol abs_tol : FP)
    (hrel : fpGt rel_tol (.finite 0) = true)
    (habs : fpGt abs_tol (.finite 0) = true) :
    ∀ a b : List FP,
      (near_eq_pairs mp rel_tol abs_tol a b = .ok true ↔
        ∀ (i : Nat) (hi : i < a.length) (hj : i < b.length),
          nearly_equal_val mp (a.get ⟨i, hi⟩) (b.get ⟨i, hj⟩) rel_tol abs_tol = true) := by
  intro a
  induction a with
  | nil =>
    intro b
    constructor
    · intro _ i hi hj
      exact absurd hi (Nat.not_lt_zero i)
    · intro _
      cases b <;> rfl
  | cons x xs ih =>
    intro b
    cases b with
    | nil =>
      constructor
      · intro _ i hi hj
        exact absurd hj (Nat.not_lt_zero i)
      · intro _
        rfl
    | cons y ys =>
      rw [near_eq_pairs, nearly_equal_ok mp x y rel_tol abs_tol hrel habs]
      cases hv : nearly_equal_val mp x y rel_tol abs_tol
      · simp only [Bool.false_eq_true, if_false]
        constructor
        · intro h
          exact absurd h (by simp)
        · intro h
          have h0 := h 0 (Nat.succ_pos _) (Nat.succ_pos _)
          simp only [List.get] at h0
          rw [h0] at hv
          exact absurd hv (by simp)
      · simp only [if_true]
        rw [ih ys]
        constructor
        · intro h i hi hj
          cases i with
          | zero => simpa [List.get] using hv
          | succ n =>
            simpa [List.get] using
              h n (Nat.lt_of_succ_lt_succ hi) (Nat.lt_of_succ_lt_succ hj)
        · intro h i hi hj
          simpa [List.get] using
            h (i + 1) (Nat.succ_lt_succ hi) (Nat.succ_lt_succ hj)

/-- Claim C7: `nearly_equal_array` panics whenever the two sequences have
different lengths; for equal-length sequences and strictly positive
tolerances it returns a boolean without panicking, and that boolean is
`true` iff `nearly_equal` holds at every index. -/
theorem claim_C7 (mp : ℚ) (a b : List FP) (rel_tol abs_tol : FP) :
    (a.length ≠ b.length →
      nearly_equal_array mp a b rel_tol abs_tol =
        .error "assertion failed: a.len() == b.len()") ∧
    (fpGt rel_tol (.finite 0) = true → fpGt abs_tol (.finite 0) = true →
      a.length = b.length →
      (∃ r, nearly_equal_array mp a b rel_tol abs_tol = .ok r) ∧
      (nearly_equal_array mp a b rel_tol abs_tol = .ok true ↔
        ∀ (i : Nat) (hi : i < a.length) (hj : i < b.length),
          nearly_equal mp (a.get ⟨i, hi⟩) (b.get ⟨i, hj⟩) rel_tol abs_tol = .ok true)) := by
  constructor
  · intro h
    simp [nearly_equal_array, h]
  · intro hrel habs hlen
    constructor
    · rw [nearly_equal_array, if_pos hlen]
      exact near_eq_pairs_ok mp rel_tol abs_tol hrel habs a b
    · rw [nearly_equal_array, if_pos hlen,
        near_eq_pairs_true_iff mp rel_tol abs_tol hrel habs a b]
      constructor
      · intro h i hi hj
        rw [nearly_equal_ok _ _ _ _ _ hrel habs, h i hi hj]
      · intro h i hi hj
        have hx := h i hi hj
        rw [nearly_equal_ok _ _ _ _ _ hrel habs] at hx
        simpa using hx

theorem claim_C7_witness :
    nearly_equal_array (mkRat 1 1000000) [.finite 1] [] (.finite 1) (.finite 1) =
      .error "assertion failed: a.len() == b.len()" ∧
    nearly_equal_array (mkRat 1 1000000) [.finite 1] [.finite 1] (.finite 1) (.finite 1) =
      .ok true :=
  ⟨(claim_C7 (mkRat 1 1000000) [.finite 1] [] (.finite 1) (.finite 1)).1 (by decide),
    ((claim_C7 (mkRat 1 1000000) [.finite 1] [.finite 1] (.finite 1) (.finite 1)).2
      (by decide) (by decide) rfl).2.mpr (by
        intro i hi hj
        have h0 : i = 0 := Nat.lt_one_iff.mp hi
        subst h0
        show nearly_equal (mkRat 1 1000000) (.finite 1) (.finite 1) (.finite 1)
          (.finite 1) = .ok true
        rfl)⟩

/-! ### Array claims: the asserting loop -/

lemma assert_pairs_all_ok (mp : ℚ) (rel_tol abs_tol : FP) (msg : String)
    (hrel : fpGt rel_tol (.finite 0) = true)
    (habs : fpGt abs_tol (.finite 0) = true) :
    ∀ (k : Nat) (a b : List FP),
      (∀ (i : Nat) (hi : i < a.length) (hj : i < b.length),
        nearly_equal_val mp (a.get ⟨i, hi⟩) (b.get ⟨i, hj⟩) rel_tol abs_tol = true) →
      assert_pairs mp rel_tol abs_tol msg k a b = .ok () := by
  intro k a
  induction a generalizing k with
  | nil =>
    intro b h
    cases b <;> rfl
  | cons x xs ih =>
    intro b h
    cases b with
    | nil => rfl
    | cons y ys =>
      have h0 : nearly_equal_val mp x y rel_tol abs_tol = true := by
        simpa [List.get] using h 0 (Nat.succ_pos _) (Nat.succ_pos _)
      simp only [assert_pairs, nearly_equal_ok mp x y rel_tol abs_tol hrel habs, h0,
        if_true]
      exact ih (k + 1) ys (fun i hi hj => by
        simpa [List.get] using
          h (i + 1) (Nat.succ_lt_succ hi) (Nat.succ_lt_succ hj))

lemma assert_pairs_first_err (mp : ℚ) (rel_tol abs_tol : FP) (msg : String)
    (hrel : fpGt rel_tol (.finite 0) = true)
    (habs : fpGt abs_tol (.finite 0) = true) :
    ∀ (k : Nat) (a b : List FP) (i : Nat) (hi : i < a.length) (hj : i < b.length),
      nearly_equal_val mp (a.get ⟨i, hi⟩) (b.get ⟨i, hj⟩) rel_tol abs_tol = false →
      (∀ (j : Nat) (hj1 : j < a.length) (hj2 : j < b.length), j < i →
        nearly_equal_val mp (a.get ⟨j, hj1⟩) (b.get ⟨j, hj2⟩) rel_tol abs_tol = true) →
      assert_pairs mp rel_tol abs_tol msg k a b =
        .error ("(" ++ msg ++ ") arrays not equal at entry " ++ toString (k + i)) := by
  intro k a
  induction a generalizing k with
  | nil =>
    intro b i hi
    exact absurd hi (Nat.not_lt_zero i)
  | cons x xs ih =>
    intro b i hi hj hf hmin
    cases b with
    | nil => exact absurd hj (Nat.not_lt_zero i)
    | cons y ys =>
      cases i with
      | zero =>
        have hf0 : nearly_equal_val mp x y rel_tol abs_tol = false := by
          simpa [List.get] using hf
        simp [assert_pairs, nearly_equal_ok mp x y rel_tol abs_tol hrel habs, hf0]
      | succ n =>
        have h0 : nearly_equal_val mp x y rel_tol abs_tol = true := by
          simpa [List.get] using
            hmin 0 (Nat.succ_pos _) (Nat.succ_pos _) (Nat.succ_pos n)
        have hrec := ih (k + 1) ys n (Nat.lt_of_succ_lt_succ hi)
          (Nat.lt_of_succ_lt_succ hj)
          (by simpa [List.get] using hf)
          (fun j hj1 hj2 hlt => by
            simpa [List.get] using
              hmin (j + 1) (Nat.succ_lt_succ hj1) (Nat.succ_lt_succ hj2)
                (Nat.succ_lt_succ hlt))
        simp only [assert_pairs, nearly_equal_ok mp x y rel_tol abs_tol hrel habs, h0,
          if_true]
        rw [show k + (n + 1) = (k + 1) + n by omega]
        exact hrec

/-- Claim C8: for equal-length sequences and strictly positive tolerances,
`assert_nearly_equal_array` succeeds silently when every pair is nearly
equal, and otherwise fails at the smallest failing index `i` with a message
combining the caller's `msg` with "arrays not equal at entry i". -/
theorem claim_C8 (mp : ℚ) (a b : List FP) (rel_tol abs_tol : FP) (msg : String)
    (hlen : a.length = b.length)
    (hrel : fpGt rel_tol (.finite 0) = true)
    (habs : fpGt abs_tol (.finite 0) = true) :
    ((∀ (i : Nat) (hi : i < a.length) (hj : i < b.length),
        nearly_equal mp (a.get ⟨i, hi⟩) (b.get ⟨i, hj⟩) rel_tol abs_tol = .ok true) →
      assert_nearly_equal_array mp a b rel_tol abs_tol msg = .ok ()) ∧
    (∀ (i : Nat) (hi : i < a.length) (hj : i < b.length),
      nearly_equal mp (a.get ⟨i, hi⟩) (b.get ⟨i, hj⟩) rel_tol abs_tol = .ok false →
      (∀ (j : Nat) (hj1 : j < a.length) (hj2 : j < b.length), j < i →
        nearly_equal mp (a.get ⟨j, hj1⟩) (b.get ⟨j, hj2⟩) rel_tol abs_tol = .ok true) →
      assert_nearly_equal_array mp a b rel_tol abs_tol msg =
        .error ("(" ++ msg ++ ") arrays not equal at entry " ++ toString i)) := by
  constructor
  · intro h
    rw [assert_nearly_equal_array, if_pos hlen]
    exact assert_pairs_all_ok mp rel_tol abs_tol msg hrel habs 0 a b
      (fun i hi hj => by
        have hx := h i hi hj
        rw [nearly_equal_ok _ _ _ _ _ hrel habs] at hx
        simpa using hx)
  · intro i hi hj hf hmin
    rw [assert_nearly_equal_array, if_pos hlen]
    have hx := assert_pairs_first_err mp rel_tol abs_tol msg hrel habs 0 a b i hi hj
      (by rw [nearly_equal_ok _ _ _ _ _ hrel habs] at hf; simpa using hf)
      (fun j hj1 hj2 hlt => by
        have hy := hmin j hj1 hj2 hlt
        rw [nearly_equal_ok _ _ _ _ _ hrel habs] at hy
        simpa using hy)
    simpa using hx

theorem claim_C8_witness :
    assert_nearly_equal_array (mkRat 1 1000000) [.finite 1, .finite 5]
      [.finite 1, .finite 7] (.finite 1) (.finite 1) "wtf" =
      .error ("(" ++ "wtf" ++ ") arrays not equal at entry " ++ toString 1) :=
  (claim_C8 (mkRat 1 1000000) [.finite 1, .finite 5] [.finite 1, .finite 7]
    (.finite 1) (.finite 1) "wtf" rfl (by decide) (by decide)).2 1
    (by decide) (by decide)
    (by
      show nearly_equal (mkRat 1 1000000) (.finite 5) (.finite 7) (.finite 1)
        (.finite 1) = .ok false
      norm_num [nearly_equal, nearly_equal_val, fpGt, fpLt, fpLe, fpEq, fabs, fsub,
        fmul, float_max, float_min, fpGe, FP.isNan, Rat.mkRat_eq_div])
    (fun j hj1 hj2 hlt => by
      have h0 : j = 0 := Nat.lt_one_iff.mp hlt
      subst h0
      show nearly_equal (mkRat 1 1000000) (.finite 1) (.finite 1) (.finite 1)
        (.finite 1) = .ok true
      rfl)

/-! ### Bound assertions -/

lemma all_ge_go_ok_iff (lim : FP) (msg : String) :
    ∀ (k : Nat) (a : List FP),
      (all_ge_go lim msg k a = .ok () ↔
        ∀ (i : Nat) (hi : i < a.length), fpLt (a.get ⟨i, hi⟩) lim = false) := by
  intro k a
  induction a generalizing k with
  | nil =>
    constructor
    · intro _ i hi
      exact absurd hi (Nat.not_lt_zero i)
    · intro _
      rfl
  | cons x xs ih =>
    cases hv : fpLt x lim
    · rw [all_ge_go, if_neg (by simp [hv]), ih (k + 1)]
      constructor
      · intro h i hi
        cases i with
        | zero => simpa [List.get] using hv
        | succ n => simpa [List.get] using h n (Nat.lt_of_succ_lt_succ hi)
      · intro h i hi
        simpa [List.get] using h (i + 1) (Nat.succ_lt_succ hi)
    · rw [all_ge_go, if_pos hv]
      constructor
      · intro h
        exact absurd h (by simp)
      · intro h
        have h0 := h 0 (Nat.succ_pos _)
        simp only [List.get] at h0
        rw [h0] at hv
        exact absurd hv (by simp)

lemma all_ge_go_first_err (lim : FP) (msg : String) :
    ∀ (k : Nat) (a : List FP) (i : Nat) (hi : i < a.length),
      fpLt (a.get ⟨i, hi⟩) lim = true →
      (∀ (j : Nat) (hj : j < a.length), j < i → fpLt (a.get ⟨j, hj⟩) lim = false) →
      all_ge_go lim msg k a =
        .error ("(" ++ msg ++ ") array[" ++ toString (k + i) ++ "] = " ++
          fpRepr (a.get ⟨i, hi⟩) ++ " is lower than " ++ fpRepr lim) := by
  intro k a
  induction a generalizing k with
  | nil =>
    intro i hi
    exact absurd hi (Nat.not_lt_zero i)
  | cons x xs ih =>
    intro i hi hf hmin
    cases i with
    | zero =>
      have hf0 : fpLt x lim = true := by simpa [List.get] using hf
      rw [all_ge_go, if_pos hf0]
      simp [List.get]
    | succ n =>
      have h0 : fpLt x lim = false := by
        simpa [List.get] using hmin 0 (Nat.succ_pos _) (Nat.succ_pos n)
      have hrec := ih (k + 1) n (Nat.lt_of_succ_lt_succ hi)
        (by simpa [List.get] using hf)
        (fun j hj hlt => by
          simpa [List.get] using
            hmin (j + 1) (Nat.succ_lt_succ hj) (Nat.succ_lt_succ hlt))
      rw [all_ge_go, if_neg (by simp [h0]),
        show k + (n + 1) = (k + 1) + n by omega]
      simpa [List.get] using hrec

lemma all_le_go_ok_iff (lim : FP) (msg : String) :
    ∀ (k : Nat) (a : List FP),
      (all_le_go lim msg k a = .ok () ↔
        ∀ (i : Nat) (hi : i < a.length), fpGt (a.get ⟨i, hi⟩) lim = false) := by
  intro k a
  induction a generalizing k with
  | nil =>
    constructor
    · intro _ i hi
      exact absurd hi (Nat.not_lt_zero i)
    · intro _
      rfl
  | cons x xs ih =>
    cases hv : fpGt x lim
    · rw [all_le_go, if_neg (by simp [hv]), ih (k + 1)]
      constructor
      · intro h i hi
        cases i with
        | zero => simpa [List.get] using hv
        | succ n => simpa [List.get] using h n (Nat.lt_of_succ_lt_succ hi)
      · intro h i hi
        simpa [List.get] using h (i + 1) (Nat.succ_lt_succ hi)
    · rw [all_le_go, if_pos hv]
      constructor
      · intro h
        exact absurd h (by simp)
      · intro h
        have h0 := h 0 (Nat.succ_pos _)
        simp only [List.get] at h0
        rw [h0] at hv
        exact absurd hv (by simp)

lemma all_le_go_first_err (lim : FP) (msg : String) :
    ∀ (k : Nat) (a : List FP) (i : Nat) (hi : i < a.length),
      fpGt (a.get ⟨i, hi⟩) lim = true →
      (∀ (j : Nat) (hj : j < a.length), j < i → fpGt (a.get ⟨j, hj⟩) lim = false) →
      all_le_go lim msg k a =
        .error ("(" ++ msg ++ ") array[" ++ toString (k + i) ++ "] = " ++
          fpRepr (a.get ⟨i, hi⟩) ++ " is greater than " ++ fpRepr lim) := by
  intro k a
  induction a generalizing k with
  | nil =>
    intro i hi
    exact absurd hi (Nat.not_lt_zero i)
  | cons x xs ih =>
    intro i hi hf hmin
    cases i with
    | zero =>
      have hf0 : fpGt x lim = true := by simpa [List.get] using hf
      rw [all_le_go, if_pos hf0]
      simp [List.get]
    | succ n =>
      have h0 : fpGt x lim = false := by
        simpa [List.get] using hmin 0 (Nat.succ_pos _) (Nat.succ_pos n)
      have hrec := ih (k + 1) n (Nat.lt_of_succ_lt_succ hi)
        (by simpa [List.get] using hf)
        (fun j hj hlt => by
          simpa [List.get] using
            hmin (j + 1) (Nat.succ_lt_succ hj) (Nat.succ_lt_succ hlt))
      rw [all_le_go, if_neg (by simp [h0]),
        show k + (n + 1) = (k + 1) + n by omega]
      simpa [List.get] using hrec

lemma except_unit_dichotomy (e : Except String Unit) :
    e = .ok () ∨ ∃ s, e = .error s := by
  cases e with
  | error s => exact Or.inr ⟨s, rfl⟩
  | ok u => cases u; exact Or.inl rfl

lemma fpLt_nan_left (x y : FP) (h : x.isNan = true) : fpLt x y = false := by
  rcases x with _ | s | q
  · cases y <;> rfl
  · simp [FP.isNan] at h
  · simp [FP.isNan] at h

lemma fpLt_nan_right (x y : FP) (h : y.isNan = true) : fpLt x y = false := by
  rcases y with _ | s | q
  · cases x <;> rfl
  · simp [FP.isNan] at h
  · simp [FP.isNan] at h

/-- Claim C9: `assert_all_ge` fails iff some element is strictly below the
limit and `assert_all_le` fails iff some element is strictly above it (IEEE
strict comparisons, so equality at the bound never triggers a failure), and
the failure happens at the first offending index with a message combining
`msg`, the index, the element's rendering and the limit's rendering. -/
theorem claim_C9 (a : List FP) (lim : FP) (msg : String) :
    ((∃ s, assert_all_ge a lim msg = .error s) ↔
      ∃ i, ∃ hi : i < a.length, fpLt (a.get ⟨i, hi⟩) lim = true) ∧
    (∀ (i : Nat) (hi : i < a.length), fpLt (a.get ⟨i, hi⟩) lim = true →
      (∀ (j : Nat) (hj : j < a.length), j < i → fpLt (a.get ⟨j, hj⟩) lim = false) →
      assert_all_ge a lim msg =
        .error ("(" ++ msg ++ ") array[" ++ toString i ++ "] = " ++
          fpRepr (a.get ⟨i, hi⟩) ++ " is lower than " ++ fpRepr lim)) ∧
    ((∃ s, assert_all_le a lim msg = .error s) ↔
      ∃ i, ∃ hi : i < a.length, fpGt (a.get ⟨i, hi⟩) lim = true) ∧
    (∀ (i : Nat) (hi : i < a.length), fpGt (a.get ⟨i, hi⟩) lim = true →
      (∀ (j : Nat) (hj : j < a.length), j < i → fpGt (a.get ⟨j, hj⟩) lim = false) →
      assert_all_le a lim msg =
        .error ("(" ++ msg ++ ") array[" ++ toString i ++ "] = " ++
          fpRepr (a.get ⟨i, hi⟩) ++ " is greater than " ++ fpRepr lim)) := by
  refine ⟨?_, ?_, ?_, ?_⟩
  · constructor
    · rintro ⟨s, hs⟩
      by_contra hno
      push_neg at hno
      have hok : assert_all_ge a lim msg = .ok () := by
        rw [assert_all_ge]
        exact (all_ge_go_ok_iff lim msg 0 a).mpr (fun i hi => by
          simpa using hno i hi)
      rw [hok] at hs
      simp at hs
    · rintro ⟨i, hi, hlt⟩
      rcases except_unit_dichotomy (assert_all_ge a lim msg) with hok | hs
      · rw [assert_all_ge] at hok
        rw [(all_ge_go_ok_iff lim msg 0 a).mp hok i hi] at hlt
        exact absurd hlt (by simp)
      · exact hs
  · intro i hi hf hmin
    rw [assert_all_ge]
    simpa using all_ge_go_first_err lim msg 0 a i hi hf hmin
  · constructor
    · rintro ⟨s, hs⟩
      by_contra hno
      push_neg at hno
      have hok : assert_all_le a lim msg = .ok () := by
        rw [assert_all_le]
        exact (all_le_go_ok_iff lim msg 0 a).mpr (fun i hi => by
          simpa using hno i hi)
      rw [hok] at hs
      simp at hs
    · rintro ⟨i, hi, hlt⟩
      rcases except_unit_dichotomy (assert_all_le a lim msg) with hok | hs
      · rw [assert_all_le] at hok
        rw [(all_le_go_ok_iff lim msg 0 a).mp hok i hi] at hlt
        exact absurd hlt (by simp)
      · exact hs
  · intro i hi hf hmin
    rw [assert_all_le]
    simpa using all_le_go_first_err lim msg 0 a i hi hf hmin

theorem claim_C9_witness :
    assert_all_ge [FP.finite 0, FP.finite (-1)] (FP.finite 0) "y" =
      .error ("(" ++ "y" ++ ") array[" ++ toString 1 ++ "] = " ++
        fpRepr (FP.finite (-1)) ++ " is lower than " ++ fpRepr (FP.finite 0)) :=
  (claim_C9 [FP.finite 0, FP.finite (-1)] (FP.finite 0) "y").2.1 1 (by decide)
    (by
      show fpLt (FP.finite (-1)) (FP.finite 0) = true
      norm_num [fpLt])
    (fun j hj hlt => by
      have h0 : j = 0 := Nat.lt_one_iff.mp hlt
      subst h0
      show fpLt (FP.finite 0) (FP.finite 0) = false
      norm_num [fpLt])

/-- Claim C10: a NaN element never causes `assert_all_ge` or `assert_all_le`
to fail: for every sequence and every limit, each assertion fails iff some
NON-NaN element strictly violates its bound (IEEE `<` and `>` with a NaN
operand are false), and in particular a sequence containing only NaNs passes
both bound assertions silently. -/
theorem claim_C10 (a : List FP) (lim : FP) (msg : String) :
    ((∃ s, assert_all_ge a lim msg = .error s) ↔
      ∃ i, ∃ hi : i < a.length,
        (a.get ⟨i, hi⟩).isNan = false ∧ fpLt (a.get ⟨i, hi⟩) lim = true) ∧
    ((∃ s, assert_all_le a lim msg = .error s) ↔
      ∃ i, ∃ hi : i < a.length,
        (a.get ⟨i, hi⟩).isNan = false ∧ fpGt (a.get ⟨i, hi⟩) lim = true) ∧
    ((∀ (i : Nat) (hi : i < a.length), (a.get ⟨i, hi⟩).isNan = true) →
      assert_all_ge a lim msg = .ok () ∧ assert_all_le a lim msg = .ok ()) := by
  refine ⟨?_, ?_, ?_⟩
  · constructor
    · rintro ⟨s, hs⟩
      by_contra hno
      push_neg at hno
      have hok : assert_all_ge a lim msg = .ok () := by
        rw [assert_all_ge]
        refine (all_ge_go_ok_iff lim msg 0 a).mpr (fun i hi => ?_)
        cases hx : (a.get ⟨i, hi⟩).isNan
        · simpa using hno i hi hx
        · exact fpLt_nan_left _ _ hx
      rw [hok] at hs
      simp at hs
    · rintro ⟨i, hi, _, hlt⟩
      rcases except_unit_dichotomy (assert_all_ge a lim msg) with hok | hs
      · rw [assert_all_ge] at hok
        rw [(all_ge_go_ok_iff lim msg 0 a).mp hok i hi] at hlt
        exact absurd hlt (by simp)
      · exact hs
  · constructor
    · rintro ⟨s, hs⟩
      by_contra hno
      push_neg at hno
      have hok : assert_all_le a lim msg = .ok () := by
        rw [assert_all_le]
        refine (all_le_go_ok_iff lim msg 0 a).mpr (fun i hi => ?_)
        cases hx : (a.get ⟨i, hi⟩).isNan
        · simpa using hno i hi hx
        · exact fpLt_nan_right lim _ hx
      rw [hok] at hs
      simp at hs
    · rintro ⟨i, hi, _, hlt⟩
      rcases except_unit_dichotomy (assert_all_le a lim msg) with hok | hs
      · rw [assert_all_le] at hok
        rw [(all_le_go_ok_iff lim msg 0 a).mp hok i hi] at hlt
        exact absurd hlt (by simp)
      · exact hs
  · intro h
    constructor
    · rw [assert_all_ge]
      exact (all_ge_go_ok_iff lim msg 0 a).mpr
        (fun i hi => fpLt_nan_left _ _ (h i hi))
    · rw [assert_all_le]
      exact (all_le_go_ok_iff lim msg 0 a).mpr
        (fun i hi => fpLt_nan_right lim _ (h i hi))

theorem claim_C10_witness :
    (∃ s, assert_all_ge [FP.nan, FP.finite (-1)] (FP.finite 0) "y" = .error s) ∧
    assert_all_ge [FP.nan, FP.nan] (FP.finite 0) "y" = .ok () ∧
    assert_all_le [FP.nan, FP.nan] (FP.finite 0) "y" = .ok () :=
  ⟨(claim_C10 [FP.nan, FP.finite (-1)] (FP.finite 0) "y").1.mpr
      ⟨1, by decide, rfl, by
        show fpLt (FP.finite (-1)) (FP.finite 0) = true
        norm_num [fpLt]⟩,
    ((claim_C10 [FP.nan, FP.nan] (FP.finite 0) "y").2.2 (fun i hi => by
      cases i with
      | zero => rfl
      | succ n =>
        cases n with
        | zero => rfl
        | succ m =>
          simp only [List.length] at hi
          omega)).1,
    ((claim_C10 [FP.nan, FP.nan] (FP.finite 0) "y").2.2 (fun i hi => by
      cases i with
      | zero => rfl
      | succ n =>
        cases n with
        | zero => rfl
        | succ m =>
          simp only [List.length] at hi
          omega)).2⟩
